import Mathlib

/-!
Shallow embedding of `streamlit_app.py` (RSS → Telegram RAG-style summarizer).

Conventions of the embedding:
* Python strings are Lean `String`s; `len` is `String.length` (code points).
* Python floats produced by `simple_similarity` (a ratio of small natural
  numbers) are embedded as rationals `ℚ`; all comparisons performed by the
  program (`sim > 0`, sorting by score) have the same outcome on the exact
  rationals for the token-count ratios involved.
* `re.findall(r"\w+", ...)` and the whitespace classes are modelled over the
  characters actually occurring in feeds handled by the program (ASCII word
  characters via `Char.isAlphanum` plus underscore, whitespace via
  `Char.isWhitespace`).
* The Telegram transport (`requests.post(...).ok`) is an oracle
  `ok : Nat → Bool` giving the outcome of the attempt on the i-th article of
  the input list; the dispatcher is instrumented to also return the list of
  attempted indices so that claims about "attempts" are statable.
-/

/-- Python `\w` word character (ASCII model: alphanumeric or underscore). -/
def isWordChar (c : Char) : Bool := c.isAlphanum || c = '_'

/-- Helper of `text_to_tokens`: maximal runs of word characters, i.e.
`re.findall(r"\w+", text)`.  `acc` is the current run, reversed. -/
def wordRunsAux : List Char → List Char → List (List Char)
  | [], acc => if acc.isEmpty then [] else [acc.reverse]
  | c :: cs, acc =>
    if isWordChar c then wordRunsAux cs (c :: acc)
    else if acc.isEmpty then wordRunsAux cs [] else acc.reverse :: wordRunsAux cs []

/-- `text_to_tokens` from `streamlit_app.py`:
`set(w.lower() for w in WORD_RE.findall(text or ""))`. -/
def text_to_tokens (s : String) : Finset String :=
  ((wordRunsAux s.data []).map (fun w => String.mk (w.map Char.toLower))).toFinset

/-- `simple_similarity` from `streamlit_app.py`: `0` when either token set is
empty, otherwise `|ta ∩ tb| / (|ta| + |tb|)`. -/
def simple_similarity (a b : String) : ℚ :=
  let ta := text_to_tokens a
  let tb := text_to_tokens b
  if ta = ∅ ∨ tb = ∅ then 0
  else ((ta ∩ tb).card : ℚ) / (((ta.card : ℚ)) + ((tb.card : ℚ)))

/-- Python `str.strip()` (ASCII whitespace model). -/
def pyStrip (s : String) : String :=
  String.mk (((s.data.dropWhile Char.isWhitespace).reverse.dropWhile
    Char.isWhitespace).reverse)

/-- Python `str.rstrip()` on a character list. -/
def pyRStrip (l : List Char) : List Char :=
  (l.reverse.dropWhile Char.isWhitespace).reverse

/-- Is the head of the reversed current segment one of `. ! ?` — the lookbehind
of `re.split(r"(?<=[.!?])\s+", ...)`. -/
def endsSentence : List Char → Bool
  | [] => false
  | p :: _ => p = '.' || p = '!' || p = '?'

/-- `re.split(r"(?<=[.!?])\s+", text)` on the character list of an already
stripped text.  `accRev` is the current segment, reversed; `skipping` is true
while consuming the `\s+` run of a separator just matched (in that mode the
segment has already been emitted). -/
def splitSentencesAux : List Char → List Char → Bool → List (List Char)
  | [], accRev, skipping => if skipping then [] else [accRev.reverse]
  | c :: cs, accRev, skipping =>
    if skipping then
      if c.isWhitespace then splitSentencesAux cs [] true
      else splitSentencesAux cs [c] false
    else
      if c.isWhitespace && endsSentence accRev then
        accRev.reverse :: splitSentencesAux cs [] true
      else splitSentencesAux cs (c :: accRev) false

/-- The sentence list computed by `summarize_text`:
`re.split(r"(?<=[.!?])\s+", text.strip())`. -/
def sentencesOf (text : String) : List String :=
  (splitSentencesAux (pyStrip text).data [] false).map (fun l => String.mk l)

/-- `summarize_text` from `streamlit_app.py`: first 3 sentences joined by a
single space, truncated to `max_chars` + `"..."` when over budget. -/
def summarize_text (text : String) (max_chars : Nat) : String :=
  if text = "" then ""
  else
    let summary := String.intercalate " " ((sentencesOf text).take 3)
    if max_chars < summary.length then
      String.mk (pyRStrip (summary.data.take max_chars)) ++ "..."
    else summary

/-- An article / history record: the four string fields produced by
`parse_entry` and stored in the history list. -/
structure ArticleRec where
  title : String
  summary : String
  link : String
  published : String
deriving DecidableEq, Repr

/-- The `(sim, h)` score list built by `build_rag_summary`:
`[(simple_similarity(new_text, h.title + " " + h.summary), h) for h in history]`. -/
def scoredHistory (article : ArticleRec) (history : List ArticleRec) :
    List (ℚ × ArticleRec) :=
  history.map (fun h =>
    (simple_similarity (article.title ++ " " ++ article.summary)
      (h.title ++ " " ++ h.summary), h))

/-- Insert into a weakly-descending list, before the first element whose score
is not larger — the insertion step of a stable descending sort. -/
def insertDesc (x : ℚ × ArticleRec) :
    List (ℚ × ArticleRec) → List (ℚ × ArticleRec)
  | [] => [x]
  | y :: ys => if y.1 ≤ x.1 then x :: y :: ys else y :: insertDesc x ys

/-- `scores.sort(key=lambda x: x[0], reverse=True)`: a stable sort by score,
descending (Python's `list.sort` is stable, and `reverse=True` keeps
equal-score elements in their original order). -/
def sortScoresDesc : List (ℚ × ArticleRec) → List (ℚ × ArticleRec)
  | [] => []
  | x :: xs => insertDesc x (sortScoresDesc xs)

/-- `context = [h for sim, h in scores[:top_k] if sim > 0]` after the sort. -/
def ragContext (article : ArticleRec) (history : List ArticleRec)
    (top_k : Nat) : List ArticleRec :=
  (((sortScoresDesc (scoredHistory article history)).take top_k).filter
    (fun p => decide (0 < p.1))).map Prod.snd

/-- `build_rag_summary` from `streamlit_app.py` (top_k is passed explicitly;
every call site uses the Python default 3). -/
def build_rag_summary (article : ArticleRec) (history : List ArticleRec)
    (top_k : Nat) : String :=
  let context := ragContext article history top_k
  let base_summary := summarize_text article.summary 300
  if context = [] then base_summary
  else
    let rel_titles := (context.map ArticleRec.title).filter
      (fun t => decide (t ≠ ""))
    if rel_titles = [] then base_summary
    else
      let ctx := "Related to: " ++ String.intercalate "; " (rel_titles.take 2)
      if base_summary.length + ctx.length + 3 < 350 then
        base_summary ++ " | " ++ ctx
      else base_summary

/-- A raw feedparser entry: each attribute may be absent (`getattr` default). -/
structure FeedEntry where
  title : Option String
  link : Option String
  summary : Option String
  description : Option String
  published : Option String
deriving DecidableEq, Repr

/-- Python `a or b` on strings: `b` when `a` is falsy (empty), else `a`. -/
def pyOrStr (a b : String) : String := if a = "" then b else a

/-- `parse_entry` from `streamlit_app.py` (`getattr(e, f, "")`, with the
summary falling back to the description via `or`). -/
def parse_entry (e : FeedEntry) : ArticleRec :=
  { title := e.title.getD ""
    link := e.link.getD ""
    summary := pyOrStr (e.summary.getD "") (e.description.getD "")
    published := e.published.getD "" }

/-- One iteration of the fetch-and-summarize batch loop: append to the history
the record whose summary is the RAG summary built against the current
history. -/
def mkHistoryRec (art : ArticleRec) (history : List ArticleRec) : ArticleRec :=
  { title := art.title
    summary := build_rag_summary art history 3
    link := art.link
    published := art.published }

/-- The batch loop over the (already truncated) article list. -/
def ragFold : List ArticleRec → List ArticleRec → List ArticleRec
  | [], h => h
  | a :: rest, h => ragFold rest (h ++ [mkHistoryRec a h])

/-- The fetch-and-summarize pipeline after parsing: truncate to
`max_articles`, then fold the RAG-summary history. -/
def runBatch (all_articles : List ArticleRec) (max_articles : Nat) :
    List ArticleRec :=
  ragFold (all_articles.take max_articles) []

/-- The send loop of `send_to_telegram`, instrumented with the list of
attempted article indices.  `ok i` is the transport outcome (`resp.ok`) of the
attempt on article `i`; `count` is incremented only on success, and the loop
stops once `count` reaches `maxm`. -/
def sendGo (ok : Nat → Bool) (maxm : Nat) :
    List ArticleRec → Nat → Nat → Nat × List Nat
  | [], _, count => (count, [])
  | _ :: rest, i, count =>
    if maxm ≤ count then (count, [])
    else
      let r := sendGo ok maxm rest (i + 1) (if ok i then count + 1 else count)
      (r.1, i :: r.2)

/-- `send_to_telegram` from `streamlit_app.py`: returns the success count and
(instrumentation) the indices of the articles for which a send was attempted. -/
def send_to_telegram (articles : List ArticleRec) (ok : Nat → Bool)
    (max_messages : Nat) : Nat × List Nat :=
  sendGo ok max_messages articles 0 0

/-! ### Helper lemmas -/

lemma length_dropWhile_le' (p : Char → Bool) (l : List Char) :
    (l.dropWhile p).length ≤ l.length := by
  induction l with
  | nil => simp
  | cons c cs ih =>
    by_cases h : p c
    · simp only [List.dropWhile_cons, h, if_true]
      exact ih.trans (Nat.le_succ _)
    · simp [List.dropWhile_cons, h]

lemma length_pyRStrip_le (l : List Char) : (pyRStrip l).length ≤ l.length := by
  simpa [pyRStrip] using length_dropWhile_le' Char.isWhitespace l.reverse

lemma simple_similarity_of_empty {a b : String}
    (h : text_to_tokens a = ∅ ∨ text_to_tokens b = ∅) :
    simple_similarity a b = 0 := by
  simp only [simple_similarity]
  rw [if_pos h]

lemma simple_similarity_of_nonempty {a b : String}
    (ha : text_to_tokens a ≠ ∅) (hb : text_to_tokens b ≠ ∅) :
    simple_similarity a b =
      ((text_to_tokens a ∩ text_to_tokens b).card : ℚ) /
        ((text_to_tokens a).card + (text_to_tokens b).card) := by
  simp only [simple_similarity]
  rw [if_neg (by push_neg; exact ⟨ha, hb⟩)]

/-! ### C6 -/

/-- C6: `simple_similarity` is `0` when either token set is empty, is
`|Ta ∩ Tb| / (|Ta| + |Tb|)` when both are nonempty, always lies in
`[0, 1/2]`, and attains `1/2` when the two (nonempty) token sets coincide. -/
theorem C6_simple_similarity_formula_and_bounds (a b : String) :
    (text_to_tokens a = ∅ ∨ text_to_tokens b = ∅ → simple_similarity a b = 0) ∧
    (text_to_tokens a ≠ ∅ → text_to_tokens b ≠ ∅ →
      simple_similarity a b =
        ((text_to_tokens a ∩ text_to_tokens b).card : ℚ) /
          ((text_to_tokens a).card + (text_to_tokens b).card)) ∧
    0 ≤ simple_similarity a b ∧ simple_similarity a b ≤ 1 / 2 ∧
    (text_to_tokens a = text_to_tokens b → text_to_tokens a ≠ ∅ →
      simple_similarity a b = 1 / 2) := by
  refine ⟨simple_similarity_of_empty, fun ha hb => simple_similarity_of_nonempty ha hb,
    ?_, ?_, ?_⟩
  · by_cases h : text_to_tokens a = ∅ ∨ text_to_tokens b = ∅
    · rw [simple_similarity_of_empty h]
    · push_neg at h
      rw [simple_similarity_of_nonempty h.1 h.2]
      positivity
  · by_cases h : text_to_tokens a = ∅ ∨ text_to_tokens b = ∅
    · rw [simple_similarity_of_empty h]; norm_num
    · push_neg at h
      rw [simple_similarity_of_nonempty h.1 h.2]
      have hca : 0 < (text_to_tokens a).card :=
        Finset.card_pos.mpr (Finset.nonempty_iff_ne_empty.mpr h.1)
      have h1 : (text_to_tokens a ∩ text_to_tokens b).card ≤
          (text_to_tokens a).card :=
        Finset.card_le_card Finset.inter_subset_left
      have h2 : (text_to_tokens a ∩ text_to_tokens b).card ≤
          (text_to_tokens b).card :=
        Finset.card_le_card Finset.inter_subset_right
      have hs : (0:ℚ) < (text_to_tokens a).card + (text_to_tokens b).card := by
        have : (0:ℚ) < (text_to_tokens a).card := by exact_mod_cast hca
        have hnn : (0:ℚ) ≤ (text_to_tokens b).card := by positivity
        linarith
      rw [div_le_iff₀ hs]
      have h1q : ((text_to_tokens a ∩ text_to_tokens b).card : ℚ) ≤
          (text_to_tokens a).card := by exact_mod_cast h1
      have h2q : ((text_to_tokens a ∩ text_to_tokens b).card : ℚ) ≤
          (text_to_tokens b).card := by exact_mod_cast h2
      linarith
  · intro hab ha
    rw [simple_similarity_of_nonempty ha (hab ▸ ha), hab, Finset.inter_self]
    have hcb : (0:ℚ) < (text_to_tokens b).card := by
      exact_mod_cast Finset.card_pos.mpr
        (Finset.nonempty_iff_ne_empty.mpr (hab ▸ ha))
    field_simp
    ring

/-- C6 witness: the theorem applied to `"cat dog"` against itself gives the
claim's example value `1/2` (and the empty-input example gives `0`). -/
theorem C6_simple_similarity_witness :
    simple_similarity "cat dog" "cat dog" = 1 / 2 ∧
    simple_similarity "" "anything" = 0 := by
  constructor
  · exact (C6_simple_similarity_formula_and_bounds "cat dog" "cat dog").2.2.2.2
      rfl (by decide)
  · exact (C6_simple_similarity_formula_and_bounds "" "anything").1
      (Or.inl (by decide))

/-! ### C9 -/

/-- C9: `simple_similarity` is symmetric. -/
theorem C9_simple_similarity_symm (a b : String) :
    simple_similarity a b = simple_similarity b a := by
  by_cases ha : text_to_tokens a = ∅ <;> by_cases hb : text_to_tokens b = ∅
  · rw [simple_similarity_of_empty (Or.inl ha),
      simple_similarity_of_empty (Or.inl hb)]
  · rw [simple_similarity_of_empty (Or.inl ha),
      simple_similarity_of_empty (Or.inr ha)]
  · rw [simple_similarity_of_empty (Or.inr hb),
      simple_similarity_of_empty (Or.inl hb)]
  · rw [simple_similarity_of_nonempty ha hb,
      simple_similarity_of_nonempty hb ha, Finset.inter_comm, add_comm]

/-! ### C10 -/

/-- C10: `parse_entry` falls back to the description both when the summary
attribute is absent and when it is present but empty (falsiness via `or`);
with both absent the resulting summary is `""`; a nonempty summary wins. -/
theorem C10_parse_entry_summary_fallback (e : FeedEntry) :
    (e.summary = some "" → (parse_entry e).summary = e.description.getD "") ∧
    (e.summary = none → (parse_entry e).summary = e.description.getD "") ∧
    (e.summary = none → e.description = none →
      (parse_entry e).summary = "") ∧
    (∀ s, e.summary = some s → s ≠ "" → (parse_entry e).summary = s) := by
  refine ⟨?_, ?_, ?_, ?_⟩ <;> intros <;> simp_all [parse_entry, pyOrStr]

/-- C10 witness: concrete entries exercising each hypothesis of the theorem. -/
theorem C10_parse_entry_summary_fallback_witness :
    (parse_entry ⟨some "T", some "L", some "", some "D", some "P"⟩).summary
        = "D" ∧
    (parse_entry ⟨some "T", some "L", none, some "D2", some "P"⟩).summary
        = "D2" ∧
    (parse_entry ⟨none, none, none, none, none⟩).summary = "" ∧
    (parse_entry ⟨some "T", some "L", some "S", some "D", some "P"⟩).summary
        = "S" := by
  refine ⟨?_, ?_, ?_, ?_⟩
  · exact (C10_parse_entry_summary_fallback
      ⟨some "T", some "L", some "", some "D", some "P"⟩).1 rfl
  · exact (C10_parse_entry_summary_fallback
      ⟨some "T", some "L", none, some "D2", some "P"⟩).2.1 rfl
  · exact (C10_parse_entry_summary_fallback
      ⟨none, none, none, none, none⟩).2.2.1 rfl rfl
  · exact (C10_parse_entry_summary_fallback
      ⟨some "T", some "L", some "S", some "D", some "P"⟩).2.2.2 "S" rfl
      (by decide)

/-! ### Dispatcher lemmas -/

lemma sendGo_fst_eq_countP (ok : Nat → Bool) (m : Nat) :
    ∀ (arts : List ArticleRec) (i c : Nat),
      (sendGo ok m arts i c).1 = c + (sendGo ok m arts i c).2.countP ok := by
  intro arts
  induction arts with
  | nil => intro i c; simp [sendGo]
  | cons a rest ih =>
    intro i c
    by_cases h : m ≤ c
    · simp [sendGo, h]
    · simp only [sendGo, h, if_false, List.countP_cons]
      rw [ih (i + 1)]
      by_cases hok : ok i
      · simp [hok]
        ring
      · simp [hok]

lemma sendGo_fst_le (ok : Nat → Bool) (m : Nat) :
    ∀ (arts : List ArticleRec) (i c : Nat), c ≤ m →
      (sendGo ok m arts i c).1 ≤ m := by
  intro arts
  induction arts with
  | nil => intro i c hc; simpa [sendGo] using hc
  | cons a rest ih =>
    intro i c hc
    by_cases h : m ≤ c
    · simpa [sendGo, h] using hc
    · simp only [sendGo, h, if_false]
      apply ih
      by_cases hok : ok i <;> simp [hok] <;> omega

lemma sendGo_snd_range' (ok : Nat → Bool) (m : Nat) :
    ∀ (arts : List ArticleRec) (i c : Nat),
      (sendGo ok m arts i c).2 =
        List.range' i (sendGo ok m arts i c).2.length := by
  intro arts
  induction arts with
  | nil => intro i c; simp [sendGo]
  | cons a rest ih =>
    intro i c
    by_cases h : m ≤ c
    · simp [sendGo, h]
    · simp only [sendGo, h, if_false, List.length_cons, List.range'_succ]
      rw [← ih (i + 1)]

lemma sendGo_skip_only_when_full (ok : Nat → Bool) (m : Nat) :
    ∀ (arts : List ArticleRec) (i c j : Nat), j < arts.length →
      (i + j) ∉ (sendGo ok m arts i c).2 →
      m ≤ c + (List.range' i j).countP ok := by
  intro arts
  induction arts with
  | nil => intro i c j hj; simp at hj
  | cons a rest ih =>
    intro i c j hj hnot
    by_cases h : m ≤ c
    · exact h.trans (Nat.le_add_right c _)
    · simp only [sendGo, h, if_false] at hnot
      cases j with
      | zero => simp at hnot
      | succ j' =>
        have hj' : j' < rest.length := by
          simpa [Nat.succ_lt_succ_iff] using hj
        have hnot' : ((i + 1) + j') ∉
            (sendGo ok m rest (i + 1) (if ok i then c + 1 else c)).2 := by
          intro hmem
          exact hnot (by simpa [Nat.add_comm, Nat.add_assoc, Nat.add_left_comm]
            using List.mem_cons_of_mem i hmem)
        have := ih (i + 1) (if ok i then c + 1 else c) j' hj' hnot'
        rw [List.range'_succ, List.countP_cons]
        by_cases hok : ok i <;> simp [hok] at this ⊢ <;> omega

/-! ### C8 -/

/-- C8: the dispatcher returns exactly the number of attempts the transport
accepted (never more than `max_messages`); attempts are a contiguous initial
run of article indices (a failure does not abort the loop), and the only way
an article of the list escapes an attempt is that `max_messages` successes had
already accumulated before it — a failure does not consume a slot. -/
theorem C8_send_to_telegram_success_count (articles : List ArticleRec)
    (ok : Nat → Bool) (max_messages : Nat) :
    (send_to_telegram articles ok max_messages).1
        = (send_to_telegram articles ok max_messages).2.countP ok ∧
    (send_to_telegram articles ok max_messages).1 ≤ max_messages ∧
    (send_to_telegram articles ok max_messages).2
        = List.range (send_to_telegram articles ok max_messages).2.length ∧
    (∀ j, j < articles.length →
      j ∉ (send_to_telegram articles ok max_messages).2 →
      max_messages ≤ (List.range j).countP ok) := by
  refine ⟨?_, ?_, ?_, ?_⟩
  · simpa using sendGo_fst_eq_countP ok max_messages articles 0 0
  · exact sendGo_fst_le ok max_messages articles 0 0 (Nat.zero_le _)
  · simpa [List.range_eq_range'] using
      sendGo_snd_range' ok max_messages articles 0 0
  · intro j hj hnot
    simpa [List.range_eq_range'] using
      sendGo_skip_only_when_full ok max_messages articles 0 0 j hj
        (by simpa using hnot)

/-- C8 witness: with 3 articles, a cap of 1 and only the first send accepted,
the dispatcher returns `(1, [0])`, and the theorem's slot-exhaustion clause
applies to the skipped article 1. -/
theorem C8_send_to_telegram_success_count_witness :
    send_to_telegram (List.replicate 3 (⟨"", "", "", ""⟩ : ArticleRec))
        (fun i => decide (i = 0)) 1 = (1, [0]) ∧
    1 ≤ (List.range 1).countP (fun i => decide (i = 0)) := by
  refine ⟨by decide, ?_⟩
  exact (C8_send_to_telegram_success_count
    (List.replicate 3 (⟨"", "", "", ""⟩ : ArticleRec))
    (fun i => decide (i = 0)) 1).2.2.2 1 (by decide) (by decide)

/-! ### C3 -/

/-- C3 counterexample: with 7 articles, `max_messages = 5` and the transport
rejecting exactly the send of article #2 (index 1), the dispatcher makes 6
attempts — article #6 (index 5) IS attempted — and returns 5, not 4.  The
claim's "exactly 5 attempts, articles 6–7 never attempted, returns 4" is
false on the code. -/
theorem C3_dispatcher_counterexample :
    (send_to_telegram (List.replicate 7 (⟨"", "", "", ""⟩ : ArticleRec))
        (fun i => decide (i ≠ 1)) 5).2.length = 6 ∧
    5 ∈ (send_to_telegram (List.replicate 7 (⟨"", "", "", ""⟩ : ArticleRec))
        (fun i => decide (i ≠ 1)) 5).2 ∧
    (send_to_telegram (List.replicate 7 (⟨"", "", "", ""⟩ : ArticleRec))
        (fun i => decide (i ≠ 1)) 5).1 = 5 := by
  decide

/-- C3 (amended): with 7 articles and `max_messages = 5`, when every attempted
send succeeds exactly 5 attempts occur (articles 6–7 are never attempted) and
5 is returned; when the send of article #2 fails and the others succeed, the
failure does not consume a slot: 6 attempts occur, article #6 is attempted,
and the returned count is 5. -/
theorem C3_dispatcher_amended :
    send_to_telegram (List.replicate 7 (⟨"", "", "", ""⟩ : ArticleRec))
        (fun _ => true) 5 = (5, [0, 1, 2, 3, 4]) ∧
    send_to_telegram (List.replicate 7 (⟨"", "", "", ""⟩ : ArticleRec))
        (fun i => decide (i ≠ 1)) 5 = (5, [0, 1, 2, 3, 4, 5]) := by
  decide

/-! ### C7 -/

/-- C7: `summarize_text` returns `""` on empty input; otherwise it joins the
first (at most) 3 sentences of the split of the stripped text with single
spaces, returning that string verbatim when within budget and the
`max_chars`-character truncation (trailing whitespace stripped) plus `"..."`
when over budget; its result never exceeds `max_chars + 3` characters. -/
theorem C7_summarize_text_shape (text : String) (mc : Nat) :
    summarize_text "" mc = "" ∧
    (summarize_text text mc).length ≤ mc + 3 ∧
    (text ≠ "" →
      ((String.intercalate " " ((sentencesOf text).take 3)).length ≤ mc →
        summarize_text text mc =
          String.intercalate " " ((sentencesOf text).take 3)) ∧
      (mc < (String.intercalate " " ((sentencesOf text).take 3)).length →
        summarize_text text mc =
          String.mk (pyRStrip
            ((String.intercalate " " ((sentencesOf text).take 3)).data.take mc))
            ++ "...")) := by
  refine ⟨by simp [summarize_text], ?_, fun ht => ⟨fun hle => ?_, fun hlt => ?_⟩⟩
  · by_cases ht : text = ""
    · simp [summarize_text, ht]
    · simp only [summarize_text, if_neg ht]
      by_cases hlt : mc < (String.intercalate " " ((sentencesOf text).take 3)).length
      · rw [if_pos hlt, String.length_append]
        have h1 : (String.mk (pyRStrip
            ((String.intercalate " " ((sentencesOf text).take 3)).data.take mc))).length
            ≤ mc := by
          have h2 := length_pyRStrip_le
            ((String.intercalate " " ((sentencesOf text).take 3)).data.take mc)
          have h3 : ((String.intercalate " "
              ((sentencesOf text).take 3)).data.take mc).length ≤ mc := by
            simp [List.length_take]
          exact (h2.trans h3)
        have hd : ("...").length = 3 := rfl
        omega
      · rw [if_neg hlt]
        omega
  · simp [summarize_text, ht, Nat.not_lt.mpr hle]
  · simp [summarize_text, ht, hlt]

/-- C7 witness: a 5-sentence body yields exactly its first 3 sentences joined
by single spaces, and an over-budget body is truncated to `max_chars`
characters (trailing whitespace stripped) plus `"..."`. -/
theorem C7_summarize_text_shape_witness :
    summarize_text "one. two. three. four. five." 300 = "one. two. three." ∧
    summarize_text "ab cd  " 3 = "ab..." := by
  constructor
  · exact (((C7_summarize_text_shape "one. two. three. four. five." 300).2.2
      (by decide)).1 (by decide)).trans (by decide)
  · exact (((C7_summarize_text_shape "ab cd  " 3).2.2
      (by decide)).2 (by decide)).trans (by decide)

/-! ### C1 and C4 — build_rag_summary -/

lemma sim_one_token_overlap_dog : simple_similarity "dog dog" " dog" = 1 / 2 := by
  rw [simple_similarity_of_nonempty (by decide) (by decide)]
  have h1 : (text_to_tokens "dog dog" ∩ text_to_tokens " dog").card = 1 := by decide
  have h2 : (text_to_tokens "dog dog").card = 1 := by decide
  have h3 : (text_to_tokens " dog").card = 1 := by decide
  rw [h1, h2, h3]; norm_num

lemma sim_one_token_overlap_cat : simple_similarity "cat cat" " cat" = 1 / 2 := by
  rw [simple_similarity_of_nonempty (by decide) (by decide)]
  have h1 : (text_to_tokens "cat cat" ∩ text_to_tokens " cat").card = 1 := by decide
  have h2 : (text_to_tokens "cat cat").card = 1 := by decide
  have h3 : (text_to_tokens " cat").card = 1 := by decide
  rw [h1, h2, h3]; norm_num

lemma ragContext_dog :
    ragContext ⟨"dog", "dog", "", ""⟩ [⟨"", "dog", "", ""⟩] 3 =
      [⟨"", "dog", "", ""⟩] := by
  simp [ragContext, scoredHistory, sortScoresDesc, insertDesc,
    sim_one_token_overlap_dog, show (0:ℚ) < 1 / 2 by norm_num]

lemma ragContext_cat :
    ragContext ⟨"cat", "cat", "", ""⟩ [⟨"", "cat", "", ""⟩] 3 =
      [⟨"", "cat", "", ""⟩] := by
  simp [ragContext, scoredHistory, sortScoresDesc, insertDesc,
    sim_one_token_overlap_cat, show (0:ℚ) < 1 / 2 by norm_num]

/-- C1 (amended): full characterization of `build_rag_summary`. -/
theorem C1_build_rag_summary_characterization (article : ArticleRec)
    (history : List ArticleRec) :
    let context := ragContext article history 3
    let base := summarize_text article.summary 300
    let rel := (context.map ArticleRec.title).filter (fun t => decide (t ≠ ""))
    let ann := "Related to: " ++ String.intercalate "; " (rel.take 2)
    (context = [] → build_rag_summary article history 3 = base) ∧
    (context ≠ [] → rel = [] → build_rag_summary article history 3 = base) ∧
    (context ≠ [] → rel ≠ [] → base.length + ann.length + 3 < 350 →
      build_rag_summary article history 3 = base ++ " | " ++ ann) ∧
    (context ≠ [] → rel ≠ [] → ¬ (base.length + ann.length + 3 < 350) →
      build_rag_summary article history 3 = base) := by
  refine ⟨fun h1 => ?_, fun h1 h2 => ?_, fun h1 h2 h3 => ?_, fun h1 h2 h3 => ?_⟩
  · simp only [build_rag_summary]
    rw [if_pos h1]
  · simp only [build_rag_summary]
    rw [if_neg h1, if_pos h2]
  · simp only [build_rag_summary]
    rw [if_neg h1, if_neg h2, if_pos h3]
  · simp only [build_rag_summary]
    rw [if_neg h1, if_neg h2, if_neg h3]

/-- C1 counterexample. -/
theorem C1_build_rag_summary_counterexample :
    ragContext ⟨"dog", "dog", "", ""⟩ [⟨"", "dog", "", ""⟩] 3 ≠ [] ∧
    (summarize_text "dog" 300).length + String.length "Related to: " + 3 < 350 ∧
    build_rag_summary ⟨"dog", "dog", "", ""⟩ [⟨"", "dog", "", ""⟩] 3 = "dog" ∧
    "dog" ≠ "dog" ++ " | " ++ "Related to: " := by
  refine ⟨by simp [ragContext_dog], by decide, ?_, by decide⟩
  simp only [build_rag_summary, ragContext_dog]
  norm_num
  decide

/-- C1 witness. -/
theorem C1_build_rag_summary_characterization_witness :
    build_rag_summary ⟨"dog", "dog", "", ""⟩ [⟨"", "dog", "", ""⟩] 3 = "dog" ∧
    build_rag_summary ⟨"t", "cat. dog.", "", ""⟩ [] 3 = "cat. dog." := by
  constructor
  · exact ((C1_build_rag_summary_characterization ⟨"dog", "dog", "", ""⟩
      [⟨"", "dog", "", ""⟩]).2.1 (by simp [ragContext_dog])
      (by simp [ragContext_dog])).trans (by decide)
  · exact ((C1_build_rag_summary_characterization ⟨"t", "cat. dog.", "", ""⟩
      []).1 (by simp [ragContext, scoredHistory, sortScoresDesc])).trans
      (by decide)

/-- C4 (amended). -/
theorem C4_empty_titles_yield_no_annotation (article : ArticleRec)
    (history : List ArticleRec)
    (hne : ragContext article history 3 ≠ [])
    (hall : ∀ c ∈ ragContext article history 3, c.title = "") :
    build_rag_summary article history 3 =
      summarize_text article.summary 300 := by
  have hrel : ((ragContext article history 3).map ArticleRec.title).filter
      (fun t => decide (t ≠ "")) = [] := by
    rw [List.filter_eq_nil_iff]
    intro t ht
    obtain ⟨c, hc, rfl⟩ := List.mem_map.mp ht
    simp [hall c hc]
  simp only [build_rag_summary]
  rw [if_neg hne, if_pos hrel]

/-- C4 counterexample. -/
theorem C4_empty_titles_counterexample :
    ragContext ⟨"cat", "cat", "", ""⟩ [⟨"", "cat", "", ""⟩] 3 ≠ [] ∧
    (∀ c ∈ ragContext ⟨"cat", "cat", "", ""⟩ [⟨"", "cat", "", ""⟩] 3,
      c.title = "") ∧
    (summarize_text "cat" 300).length + String.length "Related to: " + 3 < 350 ∧
    build_rag_summary ⟨"cat", "cat", "", ""⟩ [⟨"", "cat", "", ""⟩] 3 = "cat" ∧
    "cat" ≠ "cat" ++ " | " ++ "Related to: " := by
  refine ⟨by simp [ragContext_cat], by simp [ragContext_cat], by decide, ?_,
    by decide⟩
  simp only [build_rag_summary, ragContext_cat]
  norm_num
  decide

/-- C4 witness. -/
theorem C4_empty_titles_yield_no_annotation_witness :
    build_rag_summary ⟨"cat", "cat", "", ""⟩ [⟨"", "cat", "", ""⟩] 3 = "cat" := by
  have h := C4_empty_titles_yield_no_annotation ⟨"cat", "cat", "", ""⟩
    [⟨"", "cat", "", ""⟩] (by simp [ragContext_cat]) (by simp [ragContext_cat])
  exact h.trans (by decide)

/-! ### Stable-sort lemmas for the score list -/

lemma insertDesc_perm (x : ℚ × ArticleRec) (l : List (ℚ × ArticleRec)) :
    List.Perm (insertDesc x l) (x :: l) := by
  induction l with
  | nil => simp [insertDesc]
  | cons y ys ih =>
    by_cases h : y.1 ≤ x.1
    · simp [insertDesc, h]
    · simp only [insertDesc, if_neg h]
      exact (ih.cons y).trans (List.Perm.swap x y ys)

lemma sortScoresDesc_perm (l : List (ℚ × ArticleRec)) :
    List.Perm (sortScoresDesc l) l := by
  induction l with
  | nil => simp [sortScoresDesc]
  | cons x xs ih => exact (insertDesc_perm x (sortScoresDesc xs)).trans (ih.cons x)

lemma mem_insertDesc {a x : ℚ × ArticleRec} {l : List (ℚ × ArticleRec)} :
    a ∈ insertDesc x l ↔ a = x ∨ a ∈ l := by
  rw [(insertDesc_perm x l).mem_iff]
  simp

lemma insertDesc_pairwise {x : ℚ × ArticleRec} {l : List (ℚ × ArticleRec)}
    (h : l.Pairwise (fun p r => r.1 ≤ p.1)) :
    (insertDesc x l).Pairwise (fun p r => r.1 ≤ p.1) := by
  induction l with
  | nil => simp [insertDesc]
  | cons y ys ih =>
    rw [List.pairwise_cons] at h
    obtain ⟨hy, hys⟩ := h
    by_cases hle : y.1 ≤ x.1
    · simp only [insertDesc, if_pos hle]
      rw [List.pairwise_cons]
      refine ⟨fun z hz => ?_, ?_⟩
      · rcases List.mem_cons.mp hz with rfl | hz'
        · exact hle
        · exact (hy z hz').trans hle
      · rw [List.pairwise_cons]
        exact ⟨hy, hys⟩
    · simp only [insertDesc, if_neg hle]
      rw [List.pairwise_cons]
      refine ⟨fun z hz => ?_, ih hys⟩
      rcases mem_insertDesc.mp hz with rfl | hz'
      · exact (lt_of_not_le hle).le
      · exact hy z hz'

lemma sortScoresDesc_pairwise (l : List (ℚ × ArticleRec)) :
    (sortScoresDesc l).Pairwise (fun p r => r.1 ≤ p.1) := by
  induction l with
  | nil => simp [sortScoresDesc]
  | cons x xs ih => exact insertDesc_pairwise ih

lemma filter_score_insertDesc (q : ℚ) (x : ℚ × ArticleRec)
    (l : List (ℚ × ArticleRec)) :
    (insertDesc x l).filter (fun p => decide (p.1 = q)) =
      if x.1 = q then x :: l.filter (fun p => decide (p.1 = q))
      else l.filter (fun p => decide (p.1 = q)) := by
  induction l with
  | nil => by_cases h : x.1 = q <;> simp [insertDesc, h]
  | cons y ys ih =>
    by_cases hle : y.1 ≤ x.1
    · simp only [insertDesc, if_pos hle]
      by_cases hx : x.1 = q <;> simp [List.filter_cons, hx]
    · simp only [insertDesc, if_neg hle]
      by_cases hx : x.1 = q
      · have hy : ¬ (y.1 = q) := by
          rw [← hx]
          exact ne_of_gt (lt_of_not_le hle)
        simp [List.filter_cons, hy, hx, ih]
      · simp [List.filter_cons, hx, ih]

lemma sortScoresDesc_filter_score (q : ℚ) (l : List (ℚ × ArticleRec)) :
    (sortScoresDesc l).filter (fun p => decide (p.1 = q)) =
      l.filter (fun p => decide (p.1 = q)) := by
  induction l with
  | nil => rfl
  | cons x xs ih =>
    simp only [sortScoresDesc]
    rw [filter_score_insertDesc]
    by_cases hx : x.1 = q
    · simp [List.filter_cons, hx, ih]
    · simp [List.filter_cons, hx, ih]

/-! ### C5 -/

/-- C5: the score list of `build_rag_summary` is stably sorted by score,
descending: the sorted list is a permutation of the original, its scores are
weakly descending, and for every score value the entries carrying that score
appear in their original history order (so of two equal-scored history entries
the earlier one comes first); the context is the top-`k` slice of the sorted
list filtered to strictly positive scores, in that most-similar-first order. -/
theorem C5_score_sort_stable_descending (article : ArticleRec)
    (history : List ArticleRec) (q : ℚ) :
    (sortScoresDesc (scoredHistory article history)).Pairwise
      (fun p r => r.1 ≤ p.1) ∧
    List.Perm (sortScoresDesc (scoredHistory article history))
      (scoredHistory article history) ∧
    (sortScoresDesc (scoredHistory article history)).filter
        (fun p => decide (p.1 = q)) =
      (scoredHistory article history).filter (fun p => decide (p.1 = q)) ∧
    (∀ k, ragContext article history k =
      (((sortScoresDesc (scoredHistory article history)).take k).filter
        (fun p => decide (0 < p.1))).map Prod.snd) :=
  ⟨sortScoresDesc_pairwise _, sortScoresDesc_perm _,
    sortScoresDesc_filter_score q _, fun _ => rfl⟩

/-! ### Batch-loop lemmas -/

/-- Default record for `List.getD` statements. -/
def dfltRec : ArticleRec := ⟨"", "", "", ""⟩

lemma ragFold_length (arts : List ArticleRec) :
    ∀ h : List ArticleRec, (ragFold arts h).length = h.length + arts.length := by
  induction arts with
  | nil => intro h; simp [ragFold]
  | cons a rest ih =>
    intro h
    rw [ragFold, ih]
    simp
    omega

lemma ragFold_take_of_le (arts : List ArticleRec) :
    ∀ (h : List ArticleRec) (n : Nat), n ≤ h.length →
      (ragFold arts h).take n = h.take n := by
  induction arts with
  | nil => intro h n hn; simp [ragFold]
  | cons a rest ih =>
    intro h n hn
    rw [ragFold, ih (h ++ [mkHistoryRec a h]) n (by simp; omega)]
    exact List.take_append_of_le_length hn

lemma ragFold_getD (arts : List ArticleRec) :
    ∀ (h : List ArticleRec) (j : Nat), j < arts.length →
      (ragFold arts h).getD (h.length + j) dfltRec =
        mkHistoryRec (arts.getD j dfltRec)
          ((ragFold arts h).take (h.length + j)) := by
  induction arts with
  | nil => intro h j hj; simp at hj
  | cons a rest ih =>
    intro h j hj
    cases j with
    | zero =>
      rw [ragFold]
      have htake1 : (ragFold rest (h ++ [mkHistoryRec a h])).take (h.length + 1)
          = h ++ [mkHistoryRec a h] := by
        rw [ragFold_take_of_le rest (h ++ [mkHistoryRec a h]) (h.length + 1)
          (by simp)]
        simp
      have htake0 : (ragFold rest (h ++ [mkHistoryRec a h])).take h.length
          = h := by
        rw [ragFold_take_of_le rest (h ++ [mkHistoryRec a h]) h.length (by simp)]
        exact List.take_left h [mkHistoryRec a h]
      have hget : (ragFold rest (h ++ [mkHistoryRec a h])).getD h.length dfltRec
          = mkHistoryRec a h := by
        rw [List.getD_eq_getElem?_getD]
        have h1 : (ragFold rest (h ++ [mkHistoryRec a h]))[h.length]? =
            ((ragFold rest (h ++ [mkHistoryRec a h])).take
              (h.length + 1))[h.length]? := by
          rw [List.getElem?_take, if_pos (Nat.lt_succ_self _)]
        rw [h1, htake1, List.getElem?_append_right (Nat.le_refl _)]
        simp
      rw [Nat.add_zero, hget, htake0]
      simp
    | succ j' =>
      rw [ragFold]
      have hj' : j' < rest.length := by
        simpa [Nat.succ_lt_succ_iff] using hj
      have := ih (h ++ [mkHistoryRec a h]) j' hj'
      have harith : (h ++ [mkHistoryRec a h]).length + j' = h.length + (j' + 1) := by
        simp
        omega
      rw [harith] at this
      rw [this]
      simp

/-! ### C2 -/

/-- C2: the batch pipeline truncates the fetched list to `max_articles` before
any summarization (the history length is `min max_articles n`, never more than
`max_articles`), and the `j`-th history record is exactly `mkHistoryRec` of the
`j`-th truncated article and the already-built history prefix — its `summary`
field is the computed RAG summary (built against finalized summaries only),
never the raw feed body. -/
theorem C2_batch_history_invariant (all_articles : List ArticleRec)
    (max_articles : Nat) :
    (runBatch all_articles max_articles).length =
      min max_articles all_articles.length ∧
    (runBatch all_articles max_articles).length ≤ max_articles ∧
    (∀ j, j < (runBatch all_articles max_articles).length →
      (runBatch all_articles max_articles).getD j dfltRec =
        mkHistoryRec ((all_articles.take max_articles).getD j dfltRec)
          ((runBatch all_articles max_articles).take j)) := by
  have hlen : (runBatch all_articles max_articles).length
      = (all_articles.take max_articles).length := by
    rw [runBatch, ragFold_length]
    simp
  refine ⟨by rw [hlen]; simp [List.length_take], ?_, ?_⟩
  · rw [hlen]
    simp [List.length_take]
  · intro j hj
    have hj' : j < (all_articles.take max_articles).length := by
      rw [← hlen]; exact hj
    have := ragFold_getD (all_articles.take max_articles) [] j hj'
    simpa [runBatch] using this

/-- C2 witness: a concrete two-article batch; the theorem applied at `j = 1`
(its hypothesis discharged through the length conjunct) gives the second
history record as `mkHistoryRec` of the second article and the one-record
prefix. -/
theorem C2_batch_history_invariant_witness :
    (runBatch [⟨"t1", "cat. dog.", "l1", "p1"⟩, ⟨"", "", "", ""⟩] 5).getD 1
        dfltRec =
      mkHistoryRec (([(⟨"t1", "cat. dog.", "l1", "p1"⟩ : ArticleRec),
          ⟨"", "", "", ""⟩].take 5).getD 1 dfltRec)
        ((runBatch [⟨"t1", "cat. dog.", "l1", "p1"⟩, ⟨"", "", "", ""⟩] 5).take 1) :=
  (C2_batch_history_invariant [⟨"t1", "cat. dog.", "l1", "p1"⟩,
      ⟨"", "", "", ""⟩] 5).2.2 1
    (by rw [(C2_batch_history_invariant [⟨"t1", "cat. dog.", "l1", "p1"⟩,
        ⟨"", "", "", ""⟩] 5).1]; norm_num)
